import Mathlib

/-!
Shallow embedding of the MSS fragment rewriter (`uux.convertFragment` and its
byte-array helpers) and of the `shaka.media.SourceBufferManager` operations,
together with the box-tree controller skeleton (`uux.MssFragmentController`).
Byte buffers are `List Nat` (each element one byte value); JS numbers used for
positions are `Int` because `findBox` returns `-1` on failure; multi-byte
fields are big-endian, exactly as the source builds them.
-/

set_option maxRecDepth 100000

deriving instance DecidableEq for Except

namespace uux

/-- `uux.stringToByteArray`: the char codes of the string. -/
def stringToByteArray (stringValue : String) : List Nat :=
  stringValue.toList.map Char.toNat

/-- `uux.intToByteArray` via `uux.numberToByteArray` on a 4-byte buffer: the
source fills the buffer little-endian with `v & 0xff` / division by 256 and
then reverses it, which for integer inputs is the big-endian base-256
representation of the value modulo 2^32 (two's complement for negatives). -/
def intToByteArray (intValue : Int) : List Nat :=
  let v := (intValue % 4294967296).toNat
  [v / 16777216 % 256, v / 65536 % 256, v / 256 % 256, v % 256]

/-- `uux.longToByteArray`: same construction on an 8-byte buffer. -/
def longToByteArray (longValue : Int) : List Nat :=
  let v := (longValue % 18446744073709551616).toNat
  [v / 72057594037927936 % 256, v / 281474976710656 % 256,
   v / 1099511627776 % 256, v / 4294967296 % 256,
   v / 16777216 % 256, v / 65536 % 256, v / 256 % 256, v % 256]

/-- `uux.byteArrayToInt`: big-endian read of 4 bytes at `position`. -/
def byteArrayToInt (buffer : List Nat) (position : Nat) : Nat :=
  ((buffer.getD position 0 * 256 + buffer.getD (position + 1) 0) * 256 +
      buffer.getD (position + 2) 0) * 256 +
    buffer.getD (position + 3) 0

/-- `uux.getArraySegment(buffer, start, end)`: pushes `buffer[start+i]` for
`i < end - start` (out-of-range reads give holes that later behave as 0). -/
def getArraySegment (buffer : List Nat) (start endPos : Nat) : List Nat :=
  (List.range (endPos - start)).map (fun i => buffer.getD (start + i) 0)

/-- One JS indexed store `buffer[i] = v`: in range it overwrites, past the end
it extends the array (holes read back as 0), a negative index is ignored by
all subsequent array-level operations. -/
def setAt (buffer : List Nat) (i : Int) (v : Nat) : List Nat :=
  if 0 ≤ i then
    if i.toNat < buffer.length then buffer.set i.toNat v
    else buffer ++ List.replicate (i.toNat - buffer.length) 0 ++ [v]
  else buffer

/-- `uux.updateInArray`: sequentially stores `data[i]` at `position + i`. -/
def updateInArray (buffer : List Nat) (data : List Nat) (position : Int) :
    List Nat :=
  match data with
  | [] => buffer
  | v :: rest => updateInArray (setAt buffer position v) rest (position + 1)

/-- `uux.updateBoxSize`: writes the buffer's length into its first 4 bytes. -/
def updateBoxSize (buffer : List Nat) : List Nat :=
  updateInArray buffer (intToByteArray buffer.length) 0

/-- `uux.findBox`: linear scan for the 4-byte type tag at offset `i + 4`,
for `i < buffer.length - 8`; returns the box start index or `-1`. -/
def findBox (buffer : List Nat) (boxType : String) : Int :=
  let tag := stringToByteArray boxType
  match (List.range (buffer.length - 8)).find? (fun i =>
      decide (buffer.getD (i + 4) 0 = tag.getD 0 0 ∧
        buffer.getD (i + 5) 0 = tag.getD 1 0 ∧
        buffer.getD (i + 6) 0 = tag.getD 2 0 ∧
        buffer.getD (i + 7) 0 = tag.getD 3 0)) with
  | some i => (i : Int)
  | none => -1

/-- `uux.getBox`: locate the box, read its declared size, slice it out. -/
def getBox (buffer : List Nat) (boxType : String) : Option (List Nat) :=
  let boxLocation := findBox buffer boxType
  if boxLocation = -1 then none
  else
    let size := byteArrayToInt buffer boxLocation.toNat
    some (getArraySegment buffer boxLocation.toNat (boxLocation.toNat + size))

/-- `uux.createTfdtBox`: size placeholder, tag, version byte 1, 24-bit flags 0,
64-bit baseMediaDecodeTime, then the size is patched in. -/
def createTfdtBox (chunkTime : Int) : List Nat :=
  updateBoxSize
    ([0, 0, 0, 0] ++ stringToByteArray "tfdt" ++ [1] ++ [0, 0, 0] ++
      longToByteArray chunkTime)

/-- `uux.createSaizBox`. -/
def createSaizBox (ivCount : Nat) : List Nat :=
  updateBoxSize
    ([0, 0, 0, 0] ++ stringToByteArray "saiz" ++ [0] ++ intToByteArray 16 ++
      intToByteArray (ivCount : Int))

/-- `uux.createSaioBox`. -/
def createSaioBox : List Nat :=
  updateBoxSize
    ([0, 0, 0, 0] ++ stringToByteArray "saio" ++ intToByteArray 0 ++
      intToByteArray 1 ++ intToByteArray 0)

/-- The module-level table `uux.times`. -/
def times : List Int :=
  [0, 20020000, 40040000, 60060000, 80080000, 100100000, 120120000, 140140000,
   160160000, 180180000, 200200000, 220220000, 240240000, 260260000, 280280000,
   300300000, 320320000, 340340000, 360360000, 383049333]

/-- The module-level mutable state: `uux.currentTime` (initially `-1`). -/
structure ConvState where
  currentTime : Int
deriving Repr, DecidableEq

/-- `uux.times[i]` as consumed by `longToByteArray`: an out-of-range index
yields `undefined`, whose byte serialization coincides with that of `0`. -/
def lookupTime (i : Int) : Int :=
  if 0 ≤ i then times.getD i.toNat 0 else 0

/-- Unencrypted branch, lines 484-489: append a tfdt box to the traf bytes
and update the traf size. -/
def rebuildTrafUnenc (t : Int) (traf : List Nat) : List Nat :=
  updateBoxSize (traf ++ createTfdtBox t)

/-- Lines 518-524: the senc block: size placeholder, tag, the 32-bit word 2
(version/flags), the sample count, then the raw IV bytes; size patched in. -/
def createSencBox (ivCount : Nat) (ivData : List Nat) : List Nat :=
  updateBoxSize
    ([0, 0, 0, 0] ++ stringToByteArray "senc" ++ intToByteArray 2 ++
      intToByteArray (ivCount : Int) ++ ivData)

/-- Encrypted branch, lines 497-528: reassembled traf before the tfhd flag
patch: header, extracted tfhd and trun, fresh saiz/saio/tfdt, and a senc box
wrapping the IV bytes taken from the uuid box past its 32-byte header. -/
def trafBeforePatch (t : Int) (tfhd trun uuid : List Nat) : List Nat :=
  let ivCount := byteArrayToInt trun 12
  let ivData := getArraySegment uuid 32 uuid.length
  updateBoxSize
    ([0, 0, 0, 0] ++ stringToByteArray "traf" ++ tfhd ++ trun ++
      createSaizBox ivCount ++ createSaioBox ++ createTfdtBox t ++
      createSencBox ivCount ivData)

/-- Lines 543-545: patch the byte at `findBox(traf, "tfhd") + 9` to `0x02`. -/
def rebuildTrafEnc (t : Int) (tfhd trun uuid : List Nat) : List Nat :=
  setAt (trafBeforePatch t tfhd trun uuid)
    (findBox (trafBeforePatch t tfhd trun uuid) "tfhd" + 9) 2

/-- Lines 530-539: rebuild mdat as header plus its payload past 8 bytes. -/
def rebuildMdat (mdat : List Nat) : List Nat :=
  updateBoxSize
    ([0, 0, 0, 0] ++ stringToByteArray "mdat" ++
      getArraySegment mdat 8 mdat.length)

/-- Lines 548-561: moof reassembled around mfhd and the new traf, then the
result buffer is moof followed by mdat. -/
def assembleResult (mfhd traf mdat : List Nat) : List Nat :=
  updateBoxSize ([0, 0, 0, 0] ++ stringToByteArray "moof" ++ mfhd ++ traf) ++
    mdat

/-- Lines 563-568: locate mdat/moof/trun by scanning the result buffer and
write `mdatPosition + 8 - moofPosition` at `trunPosition + 16`. -/
def trunPatched (result0 : List Nat) : List Nat :=
  updateInArray result0
    (intToByteArray (findBox result0 "mdat" + 8 - findBox result0 "moof"))
    (findBox result0 "trun" + 16)

/-- Lines 563-574: the trun data-offset write, then for encrypted input the
saio offset write `sencPosition - moofPosition + 16` at `saioPosition + 16`
(senc and saio located in the already trun-patched buffer, moof in the
original result buffer, exactly as the source computes them). -/
def finalizeOffsets (isEncrypted : Bool) (result0 : List Nat) : List Nat :=
  let result1 := trunPatched result0
  if isEncrypted then
    updateInArray result1
      (intToByteArray (findBox result1 "senc" - findBox result0 "moof" + 16))
      (findBox result1 "saio" + 16)
  else result1

/-- The body of `uux.convertFragment` after the mfhd check, up to the offset
fixups.  A `TypeError` models the JS null dereference that is thrown when a
box used by the taken branch is missing. -/
def buildResult (buffer : List Nat) (t : Int) (isEncrypted : Bool) :
    Except String (List Nat) :=
  match getBox buffer "mfhd" with
  | none => .error "unreachable: caller checks mfhd"
  | some mfhd =>
    if isEncrypted then
      match getBox buffer "tfhd", getBox buffer "trun", getBox buffer "uuid",
          getBox buffer "mdat" with
      | some tfhd, some trun, some uuid, some mdat =>
        .ok (assembleResult mfhd (rebuildTrafEnc t tfhd trun uuid)
          (rebuildMdat mdat))
      | _, _, _, _ => .error "TypeError: null box dereference"
    else
      match getBox buffer "traf", getBox buffer "mdat" with
      | some traf, some mdat =>
        .ok (assembleResult mfhd (rebuildTrafUnenc t traf) mdat)
      | _, _ => .error "TypeError: null box dereference"

/-- `uux.convertFragment(buffer, chunkTime, isEncrypted)`: the first statement
overwrites `chunkTime` with `uux.times[uux.currentTime++]`, so the supplied
timestamp argument is never used; if no mfhd box is found the input is
returned unchanged; otherwise the fragment is rebuilt and the offsets fixed
up.  The returned `ConvState` is the updated module state. -/
def convertFragment (buffer : List Nat) (chunkTime : Int) (isEncrypted : Bool)
    (st : ConvState) : Except String (List Nat) × ConvState :=
  let t := lookupTime st.currentTime
  let st2 : ConvState := ⟨st.currentTime + 1⟩
  match getBox buffer "mfhd" with
  | none => (.ok buffer, st2)
  | some _ =>
    match buildResult buffer t isEncrypted with
    | .error e => (.error e, st2)
    | .ok r0 => (.ok (finalizeOffsets isEncrypted r0), st2)

/-- Spec-side observer: walk the children of a box payload by declared sizes,
collecting each child's 4-byte type tag; `fuel` bounds the walk. -/
def boxScan : Nat → List Nat → List (List Nat)
  | 0, _ => []
  | fuel + 1, l =>
    if 8 ≤ l.length then
      ((l.drop 4).take 4) :: boxScan fuel (l.drop (byteArrayToInt l 0))
    else []

/-- Spec-side observer: the type tags of a box's children, in order. -/
def childTypes (box : List Nat) : List (List Nat) :=
  boxScan box.length (box.drop 8)

theorem intToByteArray_length (v : Int) : (intToByteArray v).length = 4 := rfl

theorem longToByteArray_length (v : Int) : (longToByteArray v).length = 8 := rfl

theorem getArraySegment_length (buffer : List Nat) (start endPos : Nat) :
    (getArraySegment buffer start endPos).length = endPos - start := by
  simp [getArraySegment]

theorem setAt_set (l : List Nat) (i : Int) (v : Nat) (h0 : 0 ≤ i)
    (h1 : i.toNat < l.length) : setAt l i v = l.set i.toNat v := by
  simp [setAt, h0, h1]

theorem drop_append_of_length_eq {A B : List Nat} {n : Nat}
    (h : A.length = n) : (A ++ B).drop n = B := by
  subst h; exact List.drop_left A B

theorem take_append_of_length_eq {A B : List Nat} {n : Nat}
    (h : A.length = n) : (A ++ B).take n = A := by
  subst h; exact List.take_left A B

theorem updateInArray_splice : ∀ (data l : List Nat) (p : Int),
    0 ≤ p → p.toNat + data.length ≤ l.length →
    updateInArray l data p =
      l.take p.toNat ++ data ++ l.drop (p.toNat + data.length)
  | [], l, p, _, _ => by simp [updateInArray]
  | v :: rest, l, p, h0, h1 => by
    have hc : (v :: rest).length = rest.length + 1 := rfl
    have h1a : p.toNat + (rest.length + 1) ≤ l.length := by
      rw [hc] at h1; exact h1
    have hlt : p.toNat < l.length := by omega
    have hn1 : (p + 1).toNat = p.toNat + 1 := by omega
    have hsetlen : (l.set p.toNat v).length = l.length := List.length_set l ..
    have harg : (p + 1).toNat + rest.length ≤ (l.set p.toNat v).length := by
      rw [hsetlen, hn1]; omega
    have hrec := updateInArray_splice rest (l.set p.toNat v) (p + 1)
      (by omega) harg
    rw [updateInArray, setAt_set l p v h0 hlt, hrec, hn1]
    have hsp := List.set_eq_take_cons_drop v hlt
    have hlentake : (l.take p.toNat).length = p.toNat := by
      simp [List.length_take]; omega
    have htake : (l.set p.toNat v).take (p.toNat + 1) =
        l.take p.toNat ++ [v] := by
      rw [hsp, List.take_append_eq_append_take, hlentake]
      have h2 : (l.take p.toNat).take (p.toNat + 1) = l.take p.toNat := by
        rw [List.take_take]; congr 1; omega
      have h6 : p.toNat + 1 - p.toNat = 1 := by omega
      rw [h2, h6]
      simp
    have hdrop : (l.set p.toNat v).drop (p.toNat + 1 + rest.length) =
        l.drop (p.toNat + 1 + rest.length) := by
      rw [hsp, List.drop_append_eq_append_drop, hlentake]
      have h3 : (l.take p.toNat).drop (p.toNat + 1 + rest.length) = [] := by
        apply List.drop_eq_nil_of_le; omega
      have h4 : p.toNat + 1 + rest.length - p.toNat = 1 + rest.length := by
        omega
      rw [h3, List.nil_append, h4]
      rw [Nat.add_comm 1 rest.length, List.drop_succ_cons, List.drop_drop]
    rw [htake, hdrop, hc]
    have hidx : p.toNat + (rest.length + 1) = p.toNat + 1 + rest.length := by
      omega
    rw [hidx]
    simp only [List.append_assoc, List.cons_append, List.singleton_append,
      List.nil_append]

theorem updateInArray_length (data l : List Nat) (p : Int) (h0 : 0 ≤ p)
    (h1 : p.toNat + data.length ≤ l.length) :
    (updateInArray l data p).length = l.length := by
  rw [updateInArray_splice data l p h0 h1]
  simp [List.length_take]
  omega

theorem updateInArray_readback (data l : List Nat) (p : Int) (h0 : 0 ≤ p)
    (h1 : p.toNat + data.length ≤ l.length) :
    ((updateInArray l data p).drop p.toNat).take data.length = data := by
  rw [updateInArray_splice data l p h0 h1]
  have hlentake : (l.take p.toNat).length = p.toNat := by
    simp [List.length_take]; omega
  rw [List.append_assoc, drop_append_of_length_eq hlentake,
    take_append_of_length_eq rfl]

theorem updateInArray_drop_of_le (data l : List Nat) (p : Int) (n : Nat)
    (h0 : 0 ≤ p) (h1 : p.toNat + data.length ≤ l.length)
    (h2 : p.toNat + data.length ≤ n) :
    (updateInArray l data p).drop n = l.drop n := by
  rw [updateInArray_splice data l p h0 h1]
  have hlen : (l.take p.toNat ++ data).length = p.toNat + data.length := by
    simp [List.length_take]; omega
  rw [List.drop_append_eq_append_drop]
  have h3 : (l.take p.toNat ++ data).drop n = [] := by
    apply List.drop_eq_nil_of_le; omega
  rw [h3, List.nil_append, hlen, List.drop_drop]
  congr 1
  omega

theorem updateInArray_take_of_le (data l : List Nat) (p : Int) (n : Nat)
    (h0 : 0 ≤ p) (h1 : p.toNat + data.length ≤ l.length)
    (h2 : n ≤ p.toNat) :
    (updateInArray l data p).take n = l.take n := by
  rw [updateInArray_splice data l p h0 h1]
  rw [List.take_append_eq_append_take]
  have hlen : (l.take p.toNat ++ data).length = p.toNat + data.length := by
    simp [List.length_take]; omega
  have h3 : n - (l.take p.toNat ++ data).length = 0 := by omega
  rw [h3, List.take_zero, List.append_nil, List.take_append_eq_append_take]
  have hlentake : (l.take p.toNat).length = p.toNat := by
    simp [List.length_take]; omega
  have h4 : n - (l.take p.toNat).length = 0 := by omega
  rw [h4, List.take_zero, List.append_nil, List.take_take]
  congr 1
  omega

theorem updateInArray_window (data l : List Nat) (p : Int) (m k : Nat)
    (h0 : 0 ≤ p) (h1 : p.toNat + data.length ≤ l.length)
    (h2 : p.toNat + data.length ≤ m ∨ m + k ≤ p.toNat) :
    ((updateInArray l data p).drop m).take k = (l.drop m).take k := by
  rcases h2 with h2 | h2
  · rw [updateInArray_drop_of_le data l p m h0 h1 h2]
  · have e1 : ∀ x : List Nat, (x.drop m).take k = (x.take (m + k)).drop m := by
      intro x
      rw [List.drop_take]
      congr 1
      omega
    rw [e1, e1, updateInArray_take_of_le data l p (m + k) h0 h1 (by omega)]

theorem updateBoxSize_eq (l : List Nat) (h : 4 ≤ l.length) :
    updateBoxSize l = intToByteArray (l.length : Int) ++ l.drop 4 := by
  rw [updateBoxSize, updateInArray_splice _ _ 0 le_rfl
    (by rw [intToByteArray_length]; omega)]
  simp [intToByteArray_length]

theorem updateBoxSize_length (l : List Nat) (h : 4 ≤ l.length) :
    (updateBoxSize l).length = l.length := by
  rw [updateBoxSize]
  exact updateInArray_length _ _ 0 le_rfl (by rw [intToByteArray_length]; omega)

theorem byteArrayToInt_append (a c : List Nat) (p : Nat) (h : p + 4 ≤ a.length) :
    byteArrayToInt (a ++ c) p = byteArrayToInt a p := by
  have e : ∀ j : Nat, j < a.length → (a ++ c).getD j 0 = a.getD j 0 := by
    intro j hj
    simp [List.getD_eq_getElem?_getD, List.getElem?_append_left hj]
  rw [byteArrayToInt, byteArrayToInt, e p (by omega), e (p + 1) (by omega),
    e (p + 2) (by omega), e (p + 3) (by omega)]

theorem byteArrayToInt_intToByteArray (k : Nat) (h : k < 4294967296) :
    byteArrayToInt (intToByteArray (k : Int)) 0 = k := by
  have hm : ((k : Int) % 4294967296).toNat = k := by omega
  simp only [intToByteArray, hm, byteArrayToInt]
  simp [List.getD]
  omega

theorem byteArrayToInt_set_high (l : List Nat) (m : Nat) (v : Nat)
    (h : 4 ≤ m) : byteArrayToInt (l.set m v) 0 = byteArrayToInt l 0 := by
  have e : ∀ j : Nat, j ≠ m → (l.set m v).getD j 0 = l.getD j 0 := by
    intro j hj
    simp [List.getD_eq_getElem?_getD, List.getElem?_set_ne (by omega : m ≠ j)]
  rw [byteArrayToInt, byteArrayToInt, e 0 (by omega), e 1 (by omega),
    e 2 (by omega), e 3 (by omega)]

theorem tag_tfdt : stringToByteArray "tfdt" = [116, 102, 100, 116] := rfl

theorem tag_traf : stringToByteArray "traf" = [116, 114, 97, 102] := rfl

theorem tag_saiz : stringToByteArray "saiz" = [115, 97, 105, 122] := rfl

theorem tag_saio : stringToByteArray "saio" = [115, 97, 105, 111] := rfl

theorem tag_senc : stringToByteArray "senc" = [115, 101, 110, 99] := rfl

theorem tag_moof : stringToByteArray "moof" = [109, 111, 111, 102] := rfl

theorem tag_tfhd : stringToByteArray "tfhd" = [116, 102, 104, 100] := rfl

theorem tag_trun : stringToByteArray "trun" = [116, 114, 117, 110] := rfl

theorem tag_uuid : stringToByteArray "uuid" = [117, 117, 105, 100] := rfl

theorem tag_tfxd : stringToByteArray "tfxd" = [116, 102, 120, 100] := rfl

theorem tag_sdtp : stringToByteArray "sdtp" = [115, 100, 116, 112] := rfl

theorem byteArrayToInt_quad (a b c d : Nat) (x : List Nat) :
    byteArrayToInt ([a, b, c, d] ++ x) 0 =
      ((a * 256 + b) * 256 + c) * 256 + d := rfl

theorem window_of_set_nine (l : List Nat) (v : Nat) (h : 10 ≤ l.length) :
    ((l.set 9 v).drop 4).take 4 = (l.drop 4).take 4 := by
  have hsp := List.set_eq_take_cons_drop v (show 9 < l.length by omega)
  have hlt9 : (l.take 9).length = 9 := by simp [List.length_take]; omega
  rw [hsp, List.drop_append_eq_append_drop, hlt9,
    show (4 : Nat) - 9 = 0 from rfl, List.drop_zero,
    List.take_append_eq_append_take]
  have hlen : ((l.take 9).drop 4).length = 5 := by
    simp [List.length_drop, List.length_take]
    omega
  rw [hlen, show (4 : Nat) - 5 = 0 from rfl, List.take_zero, List.append_nil,
    List.drop_take, show (9 : Nat) - 4 = 5 from rfl, List.take_take,
    show min 4 5 = 4 from rfl]

theorem createTfdtBox_eq (t : Int) :
    createTfdtBox t =
      [0, 0, 0, 20] ++ stringToByteArray "tfdt" ++ [1] ++ [0, 0, 0] ++
        longToByteArray t := by
  have hl : (([0, 0, 0, 0] : List Nat) ++ stringToByteArray "tfdt" ++ [1] ++
      [0, 0, 0] ++ longToByteArray t).length = 20 := by
    simp [tag_tfdt, longToByteArray_length]
  rw [createTfdtBox, updateBoxSize_eq _ (by rw [hl]; omega), hl]
  rw [show intToByteArray ((20 : Nat) : Int) = [0, 0, 0, 20] from rfl]
  simp [tag_tfdt]

theorem createTfdtBox_length (t : Int) : (createTfdtBox t).length = 20 := by
  rw [createTfdtBox_eq]
  simp [tag_tfdt, longToByteArray_length]

theorem createSaizBox_eq (n : Nat) :
    createSaizBox n =
      [0, 0, 0, 17] ++ stringToByteArray "saiz" ++ [0] ++ [0, 0, 0, 16] ++
        intToByteArray (n : Int) := by
  have hl : (([0, 0, 0, 0] : List Nat) ++ stringToByteArray "saiz" ++ [0] ++
      intToByteArray 16 ++ intToByteArray (n : Int)).length = 17 := by
    simp [tag_saiz, intToByteArray_length]
  rw [createSaizBox, updateBoxSize_eq _ (by rw [hl]; omega), hl]
  rw [show intToByteArray ((17 : Nat) : Int) = [0, 0, 0, 17] from rfl]
  rw [show intToByteArray (16 : Int) = [0, 0, 0, 16] from rfl]
  simp [tag_saiz]

theorem createSaizBox_length (n : Nat) : (createSaizBox n).length = 17 := by
  rw [createSaizBox_eq]
  simp [tag_saiz, intToByteArray_length]

theorem createSaioBox_eq :
    createSaioBox =
      [0, 0, 0, 20, 115, 97, 105, 111, 0, 0, 0, 0, 0, 0, 0, 1, 0, 0, 0, 0] := by
  rfl

theorem createSencBox_eq (n : Nat) (ivData : List Nat) :
    createSencBox n ivData =
      intToByteArray ((16 + ivData.length : Nat) : Int) ++
        stringToByteArray "senc" ++ intToByteArray 2 ++
        intToByteArray (n : Int) ++ ivData := by
  have hl : (([0, 0, 0, 0] : List Nat) ++ stringToByteArray "senc" ++
      intToByteArray 2 ++ intToByteArray (n : Int) ++ ivData).length =
      16 + ivData.length := by
    simp [tag_senc, intToByteArray_length]
    omega
  rw [createSencBox, updateBoxSize_eq _ (by rw [hl]; omega), hl]
  simp [tag_senc]

theorem createSencBox_length (n : Nat) (ivData : List Nat) :
    (createSencBox n ivData).length = 16 + ivData.length := by
  rw [createSencBox_eq]
  simp [tag_senc, intToByteArray_length]
  omega

theorem boxScan_flatten : ∀ (boxes : List (List Nat)) (fuel : Nat),
    boxes.length ≤ fuel →
    (∀ b ∈ boxes, byteArrayToInt b 0 = b.length ∧ 8 ≤ b.length) →
    boxScan fuel boxes.flatten = boxes.map (fun b => (b.drop 4).take 4)
  | [], fuel, _, _ => by cases fuel <;> simp [boxScan]
  | b :: bs, fuel, hf, hb => by
    obtain ⟨f, rfl⟩ : ∃ f, fuel = f + 1 :=
      ⟨fuel - 1, by simp at hf; omega⟩
    have hb0 := hb b (by simp)
    have hlen : 8 ≤ (b ++ bs.flatten).length := by simp; omega
    have hsz : byteArrayToInt (b ++ bs.flatten) 0 = b.length := by
      rw [byteArrayToInt_append _ _ _ (by omega)]; exact hb0.1
    have hty : ((b ++ bs.flatten).drop 4).take 4 = (b.drop 4).take 4 := by
      rw [List.drop_append_eq_append_drop,
        show (4 : Nat) - b.length = 0 by omega, List.drop_zero,
        List.take_append_eq_append_take,
        show (4 : Nat) - (b.drop 4).length = 0 by simp; omega,
        List.take_zero, List.append_nil]
    rw [List.flatten_cons, boxScan, if_pos hlen, hsz, hty, List.drop_left,
      boxScan_flatten bs f (by simp at hf; omega)
        (fun x hx => hb x (by simp [hx])), List.map_cons]

/-- Control skeleton of `uux.MssFragmentController.prototype.convertFragment`
(`src/lib/uux/mss_fragment_controller.js`, lines 35-52).  The external box
library `mp4lib` (its `deserialize`, the fragment object's `getBoxByType`)
and the box-tree conversion body after the two early returns are not part of
this repository and are abstracted as parameters; the theorems about this
skeleton hold for every instantiation of them. -/
inductive MssConvertResult where
  | nullResult
  | bytes (data : List Nat)
deriving Repr, DecidableEq

/-- `convertFragment(data, reference, streamInfo)` of the controller:
`mp4lib.deserialize` failing yields `null`; a parsed fragment without a moof
box yields the input `data` unchanged; otherwise the converted bytes. -/
def mssConvertFragment {Fragment Box : Type}
    (deserialize : List Nat → Option Fragment)
    (getBoxByType : Fragment → String → Option Box)
    (convertBody : Fragment → List Nat) (data : List Nat) : MssConvertResult :=
  match deserialize data with
  | none => .nullResult
  | some fragment =>
    match getBoxByType fragment "moof" with
    | none => .bytes data
    | some _ => .bytes (convertBody fragment)

end uux

namespace shaka

/-- `shaka.media.SegmentReference`: the fields the SourceBufferManager
reads. -/
structure SegmentReference where
  id : Nat
  url : String
  startByte : Nat
  endByte : Nat
deriving Repr, DecidableEq

/-- One observable interaction with the underlying SourceBuffer: used to
state that an operation performs no sink call. -/
inductive SinkOp where
  | appendBuffer (data : List Nat)
  | remove (rangeStart rangeEnd : Nat)
  | abortCall
deriving Repr, DecidableEq

/-- The mutable fields of `shaka.media.SourceBufferManager` the claims are
about: the virtual insertion map `inserted_` (the set of marked segment ids),
whether a task is active (`task_ != null`), the `streamInfo` field written by
`fetch`, and the log of sink calls issued so far. -/
structure SBMState where
  inserted : List Nat
  taskActive : Bool
  streamInfo : Option Nat
  sinkLog : List SinkOp
deriving Repr, DecidableEq

/-- The error built by `fetch`/`clear` when a task is already active:
`new Error(message)` with `error.type = 'stream'`. -/
structure StreamError where
  message : String
  errType : String
deriving Repr, DecidableEq

/-- A stage descriptor of the task pipeline built by `fetch` / `clear`
(the stages themselves run later, when the task is started). -/
inductive Stage where
  | appendInit
  | rangeFetch (references : List SegmentReference)
  | convertAndAppend (references : List SegmentReference)
  | markInserted (references : List SegmentReference)
  | clearBuffer
deriving Repr, DecidableEq

/-- The synchronous outcome of calling `fetch` or `clear`: an immediately
rejected promise, or a started task with its stage list. -/
inductive OpOutcome where
  | rejected (e : StreamError)
  | started (stages : List Stage)
deriving Repr, DecidableEq

/-- `appendFetchStages_` (lines 282-333): one range fetch, one
convert-and-append stage, one bookkeeping stage, all over the same
references. -/
def appendFetchStages (references : List SegmentReference) : List Stage :=
  [Stage.rangeFetch references, Stage.convertAndAppend references,
   Stage.markInserted references]

/-- Stage construction of `fetch` (lines 181-211): optional init-segment
append, then either one grouped request when every reference shares the
first one's URL, or one request per reference. -/
def buildFetchStages (references : List SegmentReference)
    (hasInitSegment : Bool) : List Stage :=
  (if hasInitSegment then [Stage.appendInit] else []) ++
    (match references with
     | [] => []
     | r0 :: _ =>
       if references.all (fun r => r.url = r0.url) then
         appendFetchStages references
       else
         (references.map (fun r => appendFetchStages [r])).flatten)

/-- `fetch` (lines 167-214), synchronous part: `this.streamInfo = streamInfo`
runs first; with a task active the call rejects with the in-progress stream
error; otherwise a task is created with the fetch stages. -/
def fetch (s : SBMState) (references : List SegmentReference)
    (hasInitSegment : Bool) (streamInfo : Nat) : OpOutcome × SBMState :=
  let s1 := { s with streamInfo := some streamInfo }
  if s1.taskActive then
    (.rejected ⟨"Cannot fetch: previous operation not complete.", "stream"⟩, s1)
  else
    (.started (buildFetchStages references hasInitSegment),
      { s1 with taskActive := true })

/-- `clear` (lines 225-243), synchronous part: with a task active the call
rejects with the in-progress stream error and changes nothing; otherwise a
task with the single clear stage is created. -/
def clear (s : SBMState) : OpOutcome × SBMState :=
  if s.taskActive then
    (.rejected ⟨"Cannot clear: previous operation not complete.", "stream"⟩, s)
  else
    (.started [Stage.clearBuffer], { s with taskActive := true })

/-- The convert-and-append stage body (lines 315-326): when the legacy
protocol is detected (`shaka.dash.mss.baseUrl` set) the fetched bytes are
passed through the fragment controller together with `references[0]` and
`this.streamInfo` *as it is at execution time*; the result is handed to
`append_`, which calls `sourceBuffer_.appendBuffer`.  The controller call is
abstracted as the parameter `convert`. -/
def runConvertAndAppend (legacyBaseUrl : Bool)
    (convert : List Nat → SegmentReference → Option Nat → List Nat)
    (s : SBMState) (references : List SegmentReference) (data : List Nat) :
    List Nat × SBMState :=
  let converted :=
    match references with
    | [] => data
    | r0 :: _ =>
      if legacyBaseUrl then convert data r0 s.streamInfo else data
  (converted, { s with sinkLog := s.sinkLog ++ [SinkOp.appendBuffer converted] })

/-- `shaka.media.SourceBufferManager.FUDGE_FACTOR_ = 1 / 60`. -/
def FUDGE_FACTOR : ℚ := 1 / 60

/-- `bufferedAheadOf` (lines 139-150): scan the sink's buffered ranges in
order; the first range containing the timestamp within the fudge factor
determines the result `end - timestamp`; otherwise 0.  Times are exact
rationals standing for the sink's reported floating-point seconds. -/
def bufferedAheadOf (buffered : List (ℚ × ℚ)) (timestamp : ℚ) : ℚ :=
  match buffered with
  | [] => 0
  | (s, e) :: rest =>
    if s - FUDGE_FACTOR ≤ timestamp ∧ timestamp ≤ e + FUDGE_FACTOR then
      e - timestamp
    else bufferedAheadOf rest timestamp

/-- `isBuffered` (lines 129-131): `bufferedAheadOf(timestamp) > 0`. -/
def isBuffered (buffered : List (ℚ × ℚ)) (timestamp : ℚ) : Prop :=
  bufferedAheadOf buffered timestamp > 0

end shaka

namespace uux

/-- Synthetic well-formed unencrypted fragment:
`moof(mfhd, traf(trun))` followed by `mdat`. -/
def testFragmentUnenc : List Nat :=
  [0, 0, 0, 52] ++ stringToByteArray "moof" ++
    ([0, 0, 0, 16] ++ stringToByteArray "mfhd" ++ [0, 0, 0, 0, 0, 0, 0, 1]) ++
    ([0, 0, 0, 28] ++ stringToByteArray "traf" ++
      ([0, 0, 0, 20] ++ stringToByteArray "trun" ++
        [0, 0, 1, 1, 0, 0, 0, 1, 0, 0, 0, 0])) ++
    ([0, 0, 0, 12] ++ stringToByteArray "mdat" ++ [9, 9, 9, 9])

/-- tfhd box of the synthetic encrypted fragment. -/
def testTfhd : List Nat :=
  [0, 0, 0, 16] ++ stringToByteArray "tfhd" ++ [0, 0, 0, 0, 0, 0, 0, 1]

/-- trun box of the synthetic encrypted fragment (sample count 2 at offset
12, the field `uux.convertFragment` reads as the IV count). -/
def testTrun : List Nat :=
  [0, 0, 0, 20] ++ stringToByteArray "trun" ++
    [0, 0, 1, 1, 0, 0, 0, 2, 0, 0, 0, 0]

/-- uuid box of the synthetic encrypted fragment: 8 header bytes, 24 further
bytes up to the fixed 32-byte IV-payload offset, then 16 IV bytes. -/
def testUuid : List Nat :=
  [0, 0, 0, 48] ++ stringToByteArray "uuid" ++ List.replicate 24 0 ++
    [1, 2, 3, 4, 5, 6, 7, 8, 9, 10, 11, 12, 13, 14, 15, 16]

/-- Synthetic well-formed encrypted fragment:
`moof(mfhd, traf(tfhd, trun, uuid))` followed by `mdat`. -/
def testFragmentEnc : List Nat :=
  [0, 0, 0, 116] ++ stringToByteArray "moof" ++
    ([0, 0, 0, 16] ++ stringToByteArray "mfhd" ++ [0, 0, 0, 0, 0, 0, 0, 1]) ++
    ([0, 0, 0, 92] ++ stringToByteArray "traf" ++ testTfhd ++ testTrun ++
      testUuid) ++
    ([0, 0, 0, 12] ++ stringToByteArray "mdat" ++ [9, 9, 9, 9])

end uux

open uux shaka

/-- Claim C2, counterexample: two consecutive calls of
`uux.convertFragment` with identical input bytes and identical segment
metadata (timestamp 7, unencrypted) return different output bytes, because
the function reads and increments the module counter `uux.currentTime`
between the calls. -/
theorem C2_counterexample_not_stateless :
    (convertFragment testFragmentUnenc 7 false ⟨1⟩).1.toOption ≠
      (convertFragment testFragmentUnenc 7 false
        ((convertFragment testFragmentUnenc 7 false ⟨1⟩).2)).1.toOption := by
  decide

/-- Claim C2, amended: `uux.convertFragment` is deterministic only relative
to the module state `uux.currentTime`: its result does not depend on the
supplied timestamp argument at all, and every call increments the module
counter by one, so it reads and writes state shared across calls and is not
a pure function of its arguments. -/
theorem C2_amended_deterministic_given_counter (buffer : List Nat)
    (ct1 ct2 : Int) (isEncrypted : Bool) (st : ConvState) :
    convertFragment buffer ct1 isEncrypted st =
      convertFragment buffer ct2 isEncrypted st ∧
    (convertFragment buffer ct1 isEncrypted st).2 = ⟨st.currentTime + 1⟩ := by
  refine ⟨rfl, ?_⟩
  cases hg : getBox buffer "mfhd" with
  | none => simp [convertFragment, hg]
  | some m =>
    cases hb : buildResult buffer (lookupTime st.currentTime) isEncrypted with
    | error e => simp [convertFragment, hg, hb]
    | ok r => simp [convertFragment, hg, hb]

/-- Claim C6: when the linear scan finds no mfhd box, `uux.convertFragment`
returns the input buffer unchanged and raises no error (the result is `.ok`
of the input, not the `TypeError` of the other paths). -/
theorem C6_missing_mfhd_identity (buffer : List Nat) (chunkTime : Int)
    (isEncrypted : Bool) (st : ConvState)
    (h : findBox buffer "mfhd" = -1) :
    (convertFragment buffer chunkTime isEncrypted st).1 = .ok buffer := by
  have hg : getBox buffer "mfhd" = none := by simp [getBox, h]
  simp [convertFragment, hg]

/-- Claim C6, witness: a concrete buffer with no mfhd box passes through
unchanged. -/
theorem C6_missing_mfhd_identity_witness :
    findBox [1, 2, 3] "mfhd" = -1 ∧
    (convertFragment [1, 2, 3] 0 false ⟨-1⟩).1 = .ok [1, 2, 3] :=
  ⟨by decide, C6_missing_mfhd_identity [1, 2, 3] 0 false ⟨-1⟩ (by decide)⟩

/-- Claim C7: with a task active, `fetch` and `clear` reject with the
in-progress stream error, leave the inserted map exactly as it was, and
perform no sink call (the sink log is unchanged; `clear` changes nothing at
all). -/
theorem C7_busy_reject_no_mutation (s : SBMState)
    (references : List SegmentReference) (hasInitSegment : Bool)
    (streamInfo : Nat) (h : s.taskActive = true) :
    (fetch s references hasInitSegment streamInfo).1 =
      .rejected ⟨"Cannot fetch: previous operation not complete.", "stream"⟩ ∧
    (fetch s references hasInitSegment streamInfo).2.inserted = s.inserted ∧
    (fetch s references hasInitSegment streamInfo).2.sinkLog = s.sinkLog ∧
    (clear s).1 =
      .rejected ⟨"Cannot clear: previous operation not complete.", "stream"⟩ ∧
    (clear s).2 = s := by
  simp [fetch, clear, h]

/-- Claim C7, witness: a concrete busy manager state. -/
theorem C7_busy_reject_no_mutation_witness :
    (fetch ⟨[7], true, some 1, []⟩ [] false 2).1 =
      .rejected ⟨"Cannot fetch: previous operation not complete.", "stream"⟩ ∧
    (fetch ⟨[7], true, some 1, []⟩ [] false 2).2.inserted = [7] ∧
    (fetch ⟨[7], true, some 1, []⟩ [] false 2).2.sinkLog = [] ∧
    (clear ⟨[7], true, some 1, []⟩).1 =
      .rejected ⟨"Cannot clear: previous operation not complete.", "stream"⟩ ∧
    (clear ⟨[7], true, some 1, []⟩).2 = ⟨[7], true, some 1, []⟩ :=
  C7_busy_reject_no_mutation ⟨[7], true, some 1, []⟩ [] false 2 rfl

/-- Claim C9: a `fetch` call made while a task is active still overwrites
`this.streamInfo` with its own stream context before the busy check rejects
it; no other field changes, and the convert-and-append stage of the
still-running task, which reads `this.streamInfo` at execution time, then
sees the rejected call's context. -/
theorem C9_rejected_fetch_overwrites_stream_context (s : SBMState)
    (references : List SegmentReference) (hasInitSegment : Bool)
    (ctx : Nat) (h : s.taskActive = true) :
    (fetch s references hasInitSegment ctx).1 =
      .rejected ⟨"Cannot fetch: previous operation not complete.", "stream"⟩ ∧
    (fetch s references hasInitSegment ctx).2 =
      { s with streamInfo := some ctx } ∧
    ∀ (convert : List Nat → SegmentReference → Option Nat → List Nat)
      (r0 : SegmentReference) (rest : List SegmentReference) (data : List Nat),
      (runConvertAndAppend true convert
          (fetch s references hasInitSegment ctx).2 (r0 :: rest) data).1 =
        convert data r0 (some ctx) := by
  refine ⟨?_, ?_, ?_⟩ <;> simp [fetch, runConvertAndAppend, h]

/-- Claim C9, witness: concrete busy state with context 5; the rejected call
carries context 2; the rewrite stage then reads 2. -/
theorem C9_rejected_fetch_overwrites_stream_context_witness :
    (fetch ⟨[], true, some 5, []⟩ [] false 2).1 =
      .rejected ⟨"Cannot fetch: previous operation not complete.", "stream"⟩ ∧
    (fetch ⟨[], true, some 5, []⟩ [] false 2).2 = ⟨[], true, some 2, []⟩ ∧
    (runConvertAndAppend true
        (fun d r si => d ++ [r.id] ++ si.toList)
        (fetch ⟨[], true, some 5, []⟩ [] false 2).2
        [⟨1, "u", 0, 9⟩] [3]).1 = [3, 1, 2] := by
  have h := C9_rejected_fetch_overwrites_stream_context
    ⟨[], true, some 5, []⟩ [] false 2 rfl
  exact ⟨h.1, h.2.1, h.2.2 (fun d r si => d ++ [r.id] ++ si.toList)
    ⟨1, "u", 0, 9⟩ [] [3]⟩

/-- Claim C10: when `mp4lib.deserialize` fails, the controller's
`convertFragment` returns null (not the input bytes); the pass-through of
the input applies exactly when deserialization succeeds but no moof box is
found.  Holds for every instantiation of the abstracted mp4lib. -/
theorem C10_deserialize_failure_returns_null {Fragment Box : Type}
    (deserialize : List Nat → Option Fragment)
    (getBoxByType : Fragment → String → Option Box)
    (convertBody : Fragment → List Nat) (data : List Nat) :
    (deserialize data = none →
      mssConvertFragment deserialize getBoxByType convertBody data =
        .nullResult ∧
      mssConvertFragment deserialize getBoxByType convertBody data ≠
        .bytes data) ∧
    (∀ fragment, deserialize data = some fragment →
      getBoxByType fragment "moof" = none →
      mssConvertFragment deserialize getBoxByType convertBody data =
        .bytes data) := by
  constructor
  · intro h
    simp [mssConvertFragment, h]
  · intro fragment h1 h2
    simp [mssConvertFragment, h1, h2]

/-- Claim C10, witness: a deserializer that fails yields the null result and
not the bytes; one that succeeds without a moof yields the input bytes. -/
theorem C10_deserialize_failure_returns_null_witness :
    (mssConvertFragment (fun _ : List Nat => (none : Option Unit))
        (fun _ _ => (none : Option Unit)) (fun _ => []) [1, 2] =
        .nullResult ∧
      mssConvertFragment (fun _ : List Nat => (none : Option Unit))
        (fun _ _ => (none : Option Unit)) (fun _ => []) [1, 2] ≠
        .bytes [1, 2]) ∧
    mssConvertFragment (fun _ : List Nat => some ())
      (fun _ _ => (none : Option Unit)) (fun _ => []) [1, 2] =
      .bytes [1, 2] :=
  ⟨(C10_deserialize_failure_returns_null (fun _ => none) (fun _ _ => none)
      (fun _ => []) [1, 2]).1 rfl,
   (C10_deserialize_failure_returns_null (fun _ => some ()) (fun _ _ => none)
      (fun _ => []) [1, 2]).2 () rfl rfl⟩

/-- Claim C8, helper: when no tolerance-expanded range contains the
timestamp, `bufferedAheadOf` returns 0. -/
theorem bufferedAheadOf_eq_zero (t : ℚ) : ∀ buffered : List (ℚ × ℚ),
    (∀ r ∈ buffered,
      ¬(r.1 - FUDGE_FACTOR ≤ t ∧ t ≤ r.2 + FUDGE_FACTOR)) →
    bufferedAheadOf buffered t = 0
  | [], _ => by simp [bufferedAheadOf]
  | (s, e) :: rest, h => by
    have hs := h (s, e) (by simp)
    simp only [bufferedAheadOf]
    rw [if_neg hs]
    exact bufferedAheadOf_eq_zero t rest (fun r hr => h r (by simp [hr]))

/-- Claim C8, helper: the first range (in sink order) whose expanded
interval contains the timestamp determines the result. -/
theorem bufferedAheadOf_first_match (t : ℚ) : ∀ (pre : List (ℚ × ℚ))
    (s e : ℚ) (post : List (ℚ × ℚ)),
    (∀ r ∈ pre, ¬(r.1 - FUDGE_FACTOR ≤ t ∧ t ≤ r.2 + FUDGE_FACTOR)) →
    s - FUDGE_FACTOR ≤ t → t ≤ e + FUDGE_FACTOR →
    bufferedAheadOf (pre ++ (s, e) :: post) t = e - t
  | [], s, e, post, _, h1, h2 => by
    simp only [List.nil_append, bufferedAheadOf]
    rw [if_pos ⟨h1, h2⟩]
  | (a, b) :: pre, s, e, post, hpre, h1, h2 => by
    have ha := hpre (a, b) (by simp)
    simp only [List.cons_append, bufferedAheadOf]
    rw [if_neg ha]
    exact bufferedAheadOf_first_match t pre s e post
      (fun r hr => hpre r (by simp [hr])) h1 h2

/-- Claim C8, counterexample: for the single reported range `[0, 5]` the
timestamp 5 lies at the range end, inside the tolerance-expanded interval,
yet `isBuffered 5` is false because `bufferedAheadOf` returns `5 - 5 = 0`
and `isBuffered` demands a strictly positive value, refuting the claim that
every timestamp inside the expanded range is buffered. -/
theorem C8_counterexample_end_boundary_not_buffered :
    ((0 : ℚ) - FUDGE_FACTOR ≤ 5 ∧ (5 : ℚ) ≤ 5 + FUDGE_FACTOR) ∧
    bufferedAheadOf [((0 : ℚ), 5)] 5 = 0 ∧
    ¬isBuffered [((0 : ℚ), 5)] 5 := by
  have hc : (0 : ℚ) - FUDGE_FACTOR ≤ 5 ∧ (5 : ℚ) ≤ 5 + FUDGE_FACTOR := by
    constructor <;> norm_num [FUDGE_FACTOR]
  have hb : bufferedAheadOf [((0 : ℚ), 5)] 5 = 0 := by
    simp only [bufferedAheadOf]
    rw [if_pos hc]
    norm_num
  exact ⟨hc, hb, by simp [isBuffered, hb]⟩

/-- Claim C8, amended: for every timestamp outside every tolerance-expanded
range, `bufferedAheadOf` is 0; for the first range `[s, e]` (in sink order)
whose expanded interval contains the timestamp, `bufferedAheadOf t = e - t`
(which may be 0 or negative for `e ≤ t ≤ e + 1/60`), and `isBuffered t`
holds exactly when `t < e` — so a timestamp exactly at the end boundary does
not count as buffered. -/
theorem C8_amended_first_match (buffered : List (ℚ × ℚ)) (t : ℚ) :
    ((∀ r ∈ buffered,
        ¬(r.1 - FUDGE_FACTOR ≤ t ∧ t ≤ r.2 + FUDGE_FACTOR)) →
      bufferedAheadOf buffered t = 0) ∧
    (∀ (pre : List (ℚ × ℚ)) (s e : ℚ) (post : List (ℚ × ℚ)),
      buffered = pre ++ (s, e) :: post →
      (∀ r ∈ pre, ¬(r.1 - FUDGE_FACTOR ≤ t ∧ t ≤ r.2 + FUDGE_FACTOR)) →
      s - FUDGE_FACTOR ≤ t → t ≤ e + FUDGE_FACTOR →
      bufferedAheadOf buffered t = e - t ∧
        (isBuffered buffered t ↔ t < e)) := by
  refine ⟨fun h => bufferedAheadOf_eq_zero t buffered h, ?_⟩
  intro pre s e post heq hpre h1 h2
  subst heq
  have hm := bufferedAheadOf_first_match t pre s e post hpre h1 h2
  refine ⟨hm, ?_⟩
  unfold isBuffered
  rw [hm]
  exact sub_pos

/-- Claim C8, witness: one range `[0, 5]`, timestamp 3: 2 seconds buffered
ahead, and buffered since `3 < 5`. -/
theorem C8_amended_first_match_witness :
    bufferedAheadOf [((0 : ℚ), 5)] 3 = 2 ∧
    (isBuffered [((0 : ℚ), 5)] 3 ↔ (3 : ℚ) < 5) := by
  have h := (C8_amended_first_match [((0 : ℚ), 5)] 3).2 [] 0 5 [] rfl
    (by simp) (by norm_num [FUDGE_FACTOR]) (by norm_num [FUDGE_FACTOR])
  refine ⟨?_, h.2⟩
  rw [h.1]
  norm_num

/-- Claim C3: for every rewritten fragment (both branches), the 4 bytes at
offset `trunPosition + 16` of the output buffer — trun's fixed data-offset
field — are the big-endian 32-bit encoding of
`mdatPosition + 8 - moofPosition`, the positions being the ones the source
computes by linear scan over the assembled result buffer `r0`.  The
hypotheses say the boxes were found at in-range positions and, for the
encrypted branch, that the later saio write does not overlap the trun
field. -/
theorem C3_trun_data_offset (buffer : List Nat) (chunkTime : Int)
    (isEncrypted : Bool) (st : ConvState) (mfhd r0 : List Nat)
    (hm : getBox buffer "mfhd" = some mfhd)
    (hr : buildResult buffer (lookupTime st.currentTime) isEncrypted = .ok r0)
    (h0 : 0 ≤ findBox r0 "trun")
    (h1 : (findBox r0 "trun").toNat + 20 ≤ r0.length)
    (h2 : isEncrypted = true →
      0 ≤ findBox (trunPatched r0) "saio" ∧
      (findBox (trunPatched r0) "saio").toNat + 20 ≤ r0.length ∧
      ((findBox (trunPatched r0) "saio").toNat + 20 ≤
          (findBox r0 "trun").toNat + 16 ∨
        (findBox r0 "trun").toNat + 20 ≤
          (findBox (trunPatched r0) "saio").toNat + 16)) :
    (convertFragment buffer chunkTime isEncrypted st).1 =
      .ok (finalizeOffsets isEncrypted r0) ∧
    ((finalizeOffsets isEncrypted r0).drop
        ((findBox r0 "trun").toNat + 16)).take 4 =
      intToByteArray (findBox r0 "mdat" + 8 - findBox r0 "moof") := by
  have hcf : (convertFragment buffer chunkTime isEncrypted st).1 =
      .ok (finalizeOffsets isEncrypted r0) := by
    simp [convertFragment, hm, hr]
  refine ⟨hcf, ?_⟩
  have hp : (findBox r0 "trun" + 16).toNat = (findBox r0 "trun").toNat + 16 := by
    omega
  have hread : ((trunPatched r0).drop ((findBox r0 "trun").toNat + 16)).take 4 =
      intToByteArray (findBox r0 "mdat" + 8 - findBox r0 "moof") := by
    have h := updateInArray_readback
      (intToByteArray (findBox r0 "mdat" + 8 - findBox r0 "moof")) r0
      (findBox r0 "trun" + 16) (by omega)
      (by rw [intToByteArray_length, hp]; omega)
    rw [hp, intToByteArray_length] at h
    rw [trunPatched]
    exact h
  cases isEncrypted with
  | false => simpa [finalizeOffsets] using hread
  | true =>
    obtain ⟨h2a, h2b, h2c⟩ := h2 rfl
    have hlen1 : (trunPatched r0).length = r0.length := by
      rw [trunPatched]
      exact updateInArray_length _ _ _ (by omega)
        (by rw [intToByteArray_length, hp]; omega)
    have hfin : finalizeOffsets true r0 =
        updateInArray (trunPatched r0)
          (intToByteArray
            (findBox (trunPatched r0) "senc" - findBox r0 "moof" + 16))
          (findBox (trunPatched r0) "saio" + 16) := by
      simp [finalizeOffsets]
    have hw := updateInArray_window
      (intToByteArray (findBox (trunPatched r0) "senc" - findBox r0 "moof" + 16))
      (trunPatched r0) (findBox (trunPatched r0) "saio" + 16)
      ((findBox r0 "trun").toNat + 16) 4
      (by omega)
      (by rw [intToByteArray_length, hlen1]; omega)
      (by rw [intToByteArray_length]; omega)
    rw [hfin, hw, hread]

/-- Claim C3, witness: on the synthetic unencrypted fragment the assembled
result has mdat at 72, moof at 0, trun at 32; the output carries
`[0, 0, 0, 80]` at offset 48 = trun + 16. -/
theorem C3_trun_data_offset_witness :
    (buildResult testFragmentUnenc (lookupTime 1) false).toOption.isSome ∧
    ((finalizeOffsets false
        ((buildResult testFragmentUnenc (lookupTime 1) false).toOption.getD [])).drop
      ((findBox ((buildResult testFragmentUnenc (lookupTime 1) false).toOption.getD [])
          "trun").toNat + 16)).take 4 =
      intToByteArray
        (findBox ((buildResult testFragmentUnenc (lookupTime 1) false).toOption.getD [])
            "mdat" + 8 -
          findBox ((buildResult testFragmentUnenc (lookupTime 1) false).toOption.getD [])
            "moof") := by
  refine ⟨by decide, ?_⟩
  have h := C3_trun_data_offset testFragmentUnenc 7 false ⟨1⟩
    (getArraySegment testFragmentUnenc 8 24)
    ((buildResult testFragmentUnenc (lookupTime 1) false).toOption.getD [])
    (by decide) (by decide) (by decide) (by decide)
    (by simp)
  exact h.2

/-- Claim C4: for every encrypted rewrite, the 4 bytes at offset
`saioPosition + 16` of the output — saio's single offset entry — are the
big-endian 32-bit encoding of `sencPosition - moofPosition + 16`, with senc
and saio located in the trun-patched buffer and moof in the assembled
result, exactly as the source computes them. -/
theorem C4_saio_offset (buffer : List Nat) (chunkTime : Int) (st : ConvState)
    (mfhd r0 : List Nat)
    (hm : getBox buffer "mfhd" = some mfhd)
    (hr : buildResult buffer (lookupTime st.currentTime) true = .ok r0)
    (ht0 : 0 ≤ findBox r0 "trun")
    (ht1 : (findBox r0 "trun").toNat + 20 ≤ r0.length)
    (h0 : 0 ≤ findBox (trunPatched r0) "saio")
    (h1 : (findBox (trunPatched r0) "saio").toNat + 20 ≤ r0.length) :
    (convertFragment buffer chunkTime true st).1 =
      .ok (finalizeOffsets true r0) ∧
    ((finalizeOffsets true r0).drop
        ((findBox (trunPatched r0) "saio").toNat + 16)).take 4 =
      intToByteArray
        (findBox (trunPatched r0) "senc" - findBox r0 "moof" + 16) := by
  have hcf : (convertFragment buffer chunkTime true st).1 =
      .ok (finalizeOffsets true r0) := by
    simp [convertFragment, hm, hr]
  refine ⟨hcf, ?_⟩
  have hpt : (findBox r0 "trun" + 16).toNat = (findBox r0 "trun").toNat + 16 := by
    omega
  have hlen1 : (trunPatched r0).length = r0.length := by
    rw [trunPatched]
    exact updateInArray_length _ _ _ (by omega)
      (by rw [intToByteArray_length, hpt]; omega)
  have hps : (findBox (trunPatched r0) "saio" + 16).toNat =
      (findBox (trunPatched r0) "saio").toNat + 16 := by
    omega
  have hfin : finalizeOffsets true r0 =
      updateInArray (trunPatched r0)
        (intToByteArray
          (findBox (trunPatched r0) "senc" - findBox r0 "moof" + 16))
        (findBox (trunPatched r0) "saio" + 16) := by
    simp [finalizeOffsets]
  have h := updateInArray_readback
    (intToByteArray (findBox (trunPatched r0) "senc" - findBox r0 "moof" + 16))
    (trunPatched r0) (findBox (trunPatched r0) "saio" + 16) (by omega)
    (by rw [intToByteArray_length, hps, hlen1]; omega)
  rw [hps, intToByteArray_length] at h
  rw [hfin]
  exact h

/-- Claim C4, witness: on the synthetic encrypted fragment the trun-patched
result has senc at 125, saio at 85, moof at 0; the output carries
`[0, 0, 0, 141]` at offset 101 = saio + 16. -/
theorem C4_saio_offset_witness :
    (buildResult testFragmentEnc (lookupTime 1) true).toOption.isSome ∧
    ((finalizeOffsets true
        ((buildResult testFragmentEnc (lookupTime 1) true).toOption.getD [])).drop
      ((findBox (trunPatched
          ((buildResult testFragmentEnc (lookupTime 1) true).toOption.getD []))
          "saio").toNat + 16)).take 4 =
      intToByteArray
        (findBox (trunPatched
            ((buildResult testFragmentEnc (lookupTime 1) true).toOption.getD []))
            "senc" -
          findBox ((buildResult testFragmentEnc (lookupTime 1) true).toOption.getD [])
            "moof" + 16) := by
  refine ⟨by decide, ?_⟩
  have h := C4_saio_offset testFragmentEnc 7 ⟨1⟩
    (getArraySegment testFragmentEnc 8 24)
    ((buildResult testFragmentEnc (lookupTime 1) true).toOption.getD [])
    (by decide) (by decide) (by decide) (by decide) (by decide) (by decide)
  exact h.2

/-- Claim C1, counterexample: `uux.convertFragment` ignores the supplied
base timestamp.  With the module counter at 1 and supplied timestamp 5, the
output's tfdt carries baseMediaDecodeTime 20020000 (= `uux.times[1]`), not
5, so the output's tfdt field does not equal the supplied timestamp. -/
theorem C1_counterexample_timestamp_ignored :
    ((convertFragment testFragmentUnenc 5 false ⟨1⟩).1.map
        (fun out => (getBox out "tfdt").map (fun b => (b.drop 12).take 8))) =
      .ok (some (longToByteArray 20020000)) ∧
    ((convertFragment testFragmentUnenc 5 false ⟨1⟩).1.map
        (fun out => (getBox out "tfdt").map (fun b => (b.drop 12).take 8))) ≠
      .ok (some (longToByteArray 5)) :=
  ⟨by decide, by decide⟩

/-- Claim C1, amended: for every unencrypted fragment accepted by
`uux.convertFragment` (mfhd, traf and mdat found; boxes in range), the
rewritten output contains, at the end of the rewritten traf, a tfdt box
with version byte 1 and a 64-bit big-endian baseMediaDecodeTime equal to
`uux.times[uux.currentTime]` — the module clock entry at the pre-call
counter value — and not to the supplied timestamp argument, which the
function discards. -/
theorem C1_amended_tfdt_from_module_clock (buffer : List Nat)
    (chunkTime : Int) (st : ConvState) (mfhd traf mdat r0 : List Nat)
    (hm : getBox buffer "mfhd" = some mfhd)
    (ht : getBox buffer "traf" = some traf)
    (hd : getBox buffer "mdat" = some mdat)
    (h4 : 4 ≤ traf.length)
    (hr : buildResult buffer (lookupTime st.currentTime) false = .ok r0)
    (htr0 : 0 ≤ findBox r0 "trun")
    (htr1 : (findBox r0 "trun").toNat + 20 ≤ 8 + mfhd.length + traf.length) :
    (convertFragment buffer chunkTime false st).1 =
      .ok (finalizeOffsets false r0) ∧
    ((finalizeOffsets false r0).drop (8 + mfhd.length + traf.length)).take 20 =
      [0, 0, 0, 20] ++ stringToByteArray "tfdt" ++ [1] ++ [0, 0, 0] ++
        longToByteArray (lookupTime st.currentTime) := by
  have hcf : (convertFragment buffer chunkTime false st).1 =
      .ok (finalizeOffsets false r0) := by
    simp [convertFragment, hm, hr]
  refine ⟨hcf, ?_⟩
  have htfdtlen := createTfdtBox_length (lookupTime st.currentTime)
  have hlen0 : (traf ++ createTfdtBox (lookupTime st.currentTime)).length =
      traf.length + 20 := by simp [htfdtlen]
  have htraf2 : rebuildTrafUnenc (lookupTime st.currentTime) traf =
      intToByteArray ((traf.length + 20 : Nat) : Int) ++
        (traf.drop 4 ++ createTfdtBox (lookupTime st.currentTime)) := by
    rw [rebuildTrafUnenc, updateBoxSize_eq _ (by rw [hlen0]; omega), hlen0,
      List.drop_append_eq_append_drop,
      show (4 : Nat) - traf.length = 0 from by omega, List.drop_zero]
  have htraf2len :
      (rebuildTrafUnenc (lookupTime st.currentTime) traf).length =
        traf.length + 20 := by
    rw [htraf2]
    simp [intToByteArray_length, htfdtlen]
    omega
  have hr0 : r0 = assembleResult mfhd
      (rebuildTrafUnenc (lookupTime st.currentTime) traf) mdat := by
    simp [buildResult, hm, ht, hd] at hr
    exact hr.symm
  have hYlen : ([0, 0, 0, 0] ++ stringToByteArray "moof" ++ mfhd ++
      rebuildTrafUnenc (lookupTime st.currentTime) traf).length =
      8 + mfhd.length + traf.length + 20 := by
    simp [tag_moof, htraf2len]
    omega
  have hP : r0 =
      (intToByteArray ((8 + mfhd.length + traf.length + 20 : Nat) : Int) ++
        (stringToByteArray "moof" ++ (mfhd ++
          (intToByteArray ((traf.length + 20 : Nat) : Int) ++
            traf.drop 4)))) ++
        (createTfdtBox (lookupTime st.currentTime) ++ mdat) := by
    rw [hr0, assembleResult, updateBoxSize_eq _ (by rw [hYlen]; omega), hYlen,
      htraf2]
    rw [show ([0, 0, 0, 0] ++ stringToByteArray "moof" ++ mfhd ++
        (intToByteArray ((traf.length + 20 : Nat) : Int) ++
          (traf.drop 4 ++ createTfdtBox (lookupTime st.currentTime)))) =
      ([0, 0, 0, 0] : List Nat) ++ (stringToByteArray "moof" ++ (mfhd ++
        (intToByteArray ((traf.length + 20 : Nat) : Int) ++
          (traf.drop 4 ++ createTfdtBox (lookupTime st.currentTime))))) from by
      simp [List.append_assoc]]
    rw [drop_append_of_length_eq
      (show ([0, 0, 0, 0] : List Nat).length = 4 from rfl)]
    simp only [List.append_assoc]
  have hPlen :
      (intToByteArray ((8 + mfhd.length + traf.length + 20 : Nat) : Int) ++
        (stringToByteArray "moof" ++ (mfhd ++
          (intToByteArray ((traf.length + 20 : Nat) : Int) ++
            traf.drop 4)))).length = 8 + mfhd.length + traf.length := by
    simp [intToByteArray_length, tag_moof]
    omega
  have hr0len : r0.length =
      8 + mfhd.length + traf.length + 20 + mdat.length := by
    rw [hP]
    simp [intToByteArray_length, tag_moof, htfdtlen]
    omega
  have hpt : (findBox r0 "trun" + 16).toNat =
      (findBox r0 "trun").toNat + 16 := by omega
  have hw : ((finalizeOffsets false r0).drop
      (8 + mfhd.length + traf.length)).take 20 =
      (r0.drop (8 + mfhd.length + traf.length)).take 20 := by
    have hfin : finalizeOffsets false r0 = trunPatched r0 := by
      simp [finalizeOffsets]
    rw [hfin, trunPatched]
    exact updateInArray_window _ _ _ _ _ (by omega)
      (by rw [intToByteArray_length, hpt]; omega)
      (Or.inl (by rw [intToByteArray_length, hpt]; omega))
  rw [hw, hP, drop_append_of_length_eq hPlen,
    take_append_of_length_eq htfdtlen, createTfdtBox_eq]

/-- Claim C1, witness: on the synthetic unencrypted fragment with counter 1
the rewritten traf ends with a tfdt box carrying `uux.times[1]`. -/
theorem C1_amended_tfdt_from_module_clock_witness :
    ((finalizeOffsets false
        ((buildResult testFragmentUnenc (lookupTime 1) false).toOption.getD
          [])).drop 52).take 20 =
      [0, 0, 0, 20] ++ stringToByteArray "tfdt" ++ [1] ++ [0, 0, 0] ++
        longToByteArray (lookupTime 1) := by
  have h := C1_amended_tfdt_from_module_clock testFragmentUnenc 5 ⟨1⟩
    (getArraySegment testFragmentUnenc 8 24)
    (getArraySegment testFragmentUnenc 24 52)
    (getArraySegment testFragmentUnenc 52 64)
    ((buildResult testFragmentUnenc (lookupTime 1) false).toOption.getD [])
    (by decide) (by decide) (by decide) (by decide) (by decide) (by decide)
    (by decide)
  exact h.2

/-- Claim C5: the traf reassembled by the encrypted branch of
`uux.convertFragment` consists of exactly the child boxes tfhd, trun, saiz,
saio, tfdt, senc in that order — one of each of saiz, saio, tfdt, senc and
none of uuid, tfxd or sdtp (a sepiff box, which carries the "uuid" wire tag,
is likewise absent).  Hypotheses: the extracted tfhd and trun carry their
own length as declared size and their proper type tags, the tfhd flag patch
lands at the expected position 8, and the uuid box is small enough for the
senc size field. -/
theorem C5_encrypted_traf_layout (t : Int) (tfhd trun uuid : List Nat)
    (h1 : byteArrayToInt tfhd 0 = tfhd.length) (h2 : 10 ≤ tfhd.length)
    (h3 : byteArrayToInt trun 0 = trun.length) (h4 : 8 ≤ trun.length)
    (h5 : findBox (trafBeforePatch t tfhd trun uuid) "tfhd" = 8)
    (h6 : (tfhd.drop 4).take 4 = stringToByteArray "tfhd")
    (h7 : (trun.drop 4).take 4 = stringToByteArray "trun")
    (h8 : uuid.length + 16 < 4294967296) :
    childTypes (rebuildTrafEnc t tfhd trun uuid) =
      [stringToByteArray "tfhd", stringToByteArray "trun",
       stringToByteArray "saiz", stringToByteArray "saio",
       stringToByteArray "tfdt", stringToByteArray "senc"] ∧
    (childTypes (rebuildTrafEnc t tfhd trun uuid)).count
      (stringToByteArray "saiz") = 1 ∧
    (childTypes (rebuildTrafEnc t tfhd trun uuid)).count
      (stringToByteArray "saio") = 1 ∧
    (childTypes (rebuildTrafEnc t tfhd trun uuid)).count
      (stringToByteArray "tfdt") = 1 ∧
    (childTypes (rebuildTrafEnc t tfhd trun uuid)).count
      (stringToByteArray "senc") = 1 ∧
    (childTypes (rebuildTrafEnc t tfhd trun uuid)).count
      (stringToByteArray "uuid") = 0 ∧
    (childTypes (rebuildTrafEnc t tfhd trun uuid)).count
      (stringToByteArray "tfxd") = 0 ∧
    (childTypes (rebuildTrafEnc t tfhd trun uuid)).count
      (stringToByteArray "sdtp") = 0 := by
  have htg : (stringToByteArray "traf").length = 4 := by simp [tag_traf]
  have hivlen : (getArraySegment uuid 32 uuid.length).length =
      uuid.length - 32 := getArraySegment_length uuid 32 uuid.length
  have hsaizlen := createSaizBox_length (byteArrayToInt trun 12)
  have hsaiolen : createSaioBox.length = 20 := by rw [createSaioBox_eq]; rfl
  have htfdtlen := createTfdtBox_length t
  have hsenclen := createSencBox_length (byteArrayToInt trun 12)
    (getArraySegment uuid 32 uuid.length)
  have hYlen : (([0, 0, 0, 0] : List Nat) ++ (stringToByteArray "traf" ++
      (tfhd ++ (trun ++ (createSaizBox (byteArrayToInt trun 12) ++
        (createSaioBox ++ (createTfdtBox t ++
          createSencBox (byteArrayToInt trun 12)
            (getArraySegment uuid 32 uuid.length)))))))).length =
      8 + tfhd.length + trun.length + 17 + 20 + 20 +
        (16 + (uuid.length - 32)) := by
    simp only [List.length_append, List.length_cons, List.length_nil, htg,
      hsaizlen, hsaiolen, htfdtlen, hsenclen, hivlen]
    omega
  have hT1 : trafBeforePatch t tfhd trun uuid =
      intToByteArray ((8 + tfhd.length + trun.length + 17 + 20 + 20 +
          (16 + (uuid.length - 32)) : Nat) : Int) ++
        (stringToByteArray "traf" ++ (tfhd ++ (trun ++
          (createSaizBox (byteArrayToInt trun 12) ++ (createSaioBox ++
            (createTfdtBox t ++ createSencBox (byteArrayToInt trun 12)
              (getArraySegment uuid 32 uuid.length))))))) := by
    simp only [trafBeforePatch]
    rw [show [0, 0, 0, 0] ++ stringToByteArray "traf" ++ tfhd ++ trun ++
        createSaizBox (byteArrayToInt trun 12) ++ createSaioBox ++
        createTfdtBox t ++ createSencBox (byteArrayToInt trun 12)
          (getArraySegment uuid 32 uuid.length) =
      ([0, 0, 0, 0] : List Nat) ++ (stringToByteArray "traf" ++ (tfhd ++
        (trun ++ (createSaizBox (byteArrayToInt trun 12) ++ (createSaioBox ++
          (createTfdtBox t ++ createSencBox (byteArrayToInt trun 12)
            (getArraySegment uuid 32 uuid.length))))))) from by
      simp [List.append_assoc]]
    rw [updateBoxSize_eq _ (by rw [hYlen]; omega), hYlen,
      drop_append_of_length_eq
        (show ([0, 0, 0, 0] : List Nat).length = 4 from rfl)]
  have hT1big : 97 ≤ (trafBeforePatch t tfhd trun uuid).length := by
    rw [hT1]
    simp only [List.length_append, intToByteArray_length, htg, hsaizlen,
      hsaiolen, htfdtlen, hsenclen]
    omega
  have hset : rebuildTrafEnc t tfhd trun uuid =
      intToByteArray ((8 + tfhd.length + trun.length + 17 + 20 + 20 +
          (16 + (uuid.length - 32)) : Nat) : Int) ++
        (stringToByteArray "traf" ++ ((tfhd.set 9 2) ++
        (trun ++ (createSaizBox (byteArrayToInt trun 12) ++ (createSaioBox ++
          (createTfdtBox t ++ createSencBox (byteArrayToInt trun 12)
            (getArraySegment uuid 32 uuid.length))))))) := by
    rw [rebuildTrafEnc, h5, show (8 : Int) + 9 = 17 from by decide]
    rw [setAt_set _ _ _ (by decide) (by
      have h17 : ((17 : Int)).toNat = 17 := rfl
      omega)]
    rw [show ((17 : Int)).toNat = 17 from rfl, hT1]
    rw [List.set_append_right 17 2 (by rw [intToByteArray_length]; omega)]
    rw [intToByteArray_length, show (17 : Nat) - 4 = 13 from rfl]
    rw [List.set_append_right 13 2 (by rw [htg]; omega)]
    rw [htg, show (13 : Nat) - 4 = 9 from rfl]
    rw [List.set_append_left 9 2 (by omega)]
  have hpayload : (rebuildTrafEnc t tfhd trun uuid).drop 8 =
      (tfhd.set 9 2) ++ (trun ++
        (createSaizBox (byteArrayToInt trun 12) ++ (createSaioBox ++
          (createTfdtBox t ++ createSencBox (byteArrayToInt trun 12)
            (getArraySegment uuid 32 uuid.length))))) := by
    rw [hset, List.drop_append_eq_append_drop,
      List.drop_eq_nil_of_le (by rw [intToByteArray_length]; omega),
      List.nil_append, intToByteArray_length,
      show (8 : Nat) - 4 = 4 from rfl,
      drop_append_of_length_eq htg]
  have hboxes : ∀ b ∈ [tfhd.set 9 2, trun,
      createSaizBox (byteArrayToInt trun 12), createSaioBox,
      createTfdtBox t, createSencBox (byteArrayToInt trun 12)
        (getArraySegment uuid 32 uuid.length)],
      byteArrayToInt b 0 = b.length ∧ 8 ≤ b.length := by
    intro b hb
    simp only [List.mem_cons, List.not_mem_nil, or_false] at hb
    rcases hb with rfl | rfl | rfl | rfl | rfl | rfl
    · refine ⟨?_, ?_⟩
      · rw [byteArrayToInt_set_high _ _ _ (by omega), h1, List.length_set]
      · rw [List.length_set]; omega
    · exact ⟨h3, h4⟩
    · refine ⟨?_, ?_⟩
      · rw [hsaizlen, createSaizBox_eq]
        simp only [List.append_assoc]
        rw [byteArrayToInt_quad]
      · rw [hsaizlen]; omega
    · refine ⟨?_, ?_⟩
      · rw [hsaiolen, createSaioBox_eq]
        rfl
      · rw [hsaiolen]; omega
    · refine ⟨?_, ?_⟩
      · rw [htfdtlen, createTfdtBox_eq]
        simp only [List.append_assoc]
        rw [byteArrayToInt_quad]
      · rw [htfdtlen]; omega
    · refine ⟨?_, ?_⟩
      · rw [hsenclen, createSencBox_eq]
        simp only [List.append_assoc]
        rw [byteArrayToInt_append _ _ 0 (by rw [intToByteArray_length])]
        rw [byteArrayToInt_intToByteArray _ (by rw [hivlen]; omega)]
      · rw [hsenclen]; omega
  have hfuel : ([tfhd.set 9 2, trun,
      createSaizBox (byteArrayToInt trun 12), createSaioBox,
      createTfdtBox t, createSencBox (byteArrayToInt trun 12)
        (getArraySegment uuid 32 uuid.length)] :
      List (List Nat)).length ≤ (rebuildTrafEnc t tfhd trun uuid).length := by
    have hlen : (rebuildTrafEnc t tfhd trun uuid).length =
        (trafBeforePatch t tfhd trun uuid).length := by
      rw [hset, hT1]
      simp only [List.length_append, List.length_set]
    simp only [List.length_cons, List.length_nil]
    omega
  have hflat : (tfhd.set 9 2) ++ (trun ++
      (createSaizBox (byteArrayToInt trun 12) ++ (createSaioBox ++
        (createTfdtBox t ++ createSencBox (byteArrayToInt trun 12)
          (getArraySegment uuid 32 uuid.length))))) =
      ([tfhd.set 9 2, trun, createSaizBox (byteArrayToInt trun 12),
        createSaioBox, createTfdtBox t,
        createSencBox (byteArrayToInt trun 12)
          (getArraySegment uuid 32 uuid.length)] :
        List (List Nat)).flatten := by
    simp [List.flatten]
  have e_tfhd : (((tfhd.set 9 2).drop 4)).take 4 = stringToByteArray "tfhd" := by
    rw [window_of_set_nine _ _ h2, h6]
  have e_saiz : (((createSaizBox (byteArrayToInt trun 12)).drop 4)).take 4 =
      stringToByteArray "saiz" := by
    rw [createSaizBox_eq]
    simp only [List.append_assoc]
    rw [drop_append_of_length_eq
      (show ([0, 0, 0, 17] : List Nat).length = 4 from rfl),
      take_append_of_length_eq (by simp [tag_saiz])]
  have e_saio : ((createSaioBox.drop 4)).take 4 = stringToByteArray "saio" := by
    rw [createSaioBox_eq, tag_saio]
    rfl
  have e_tfdt : (((createTfdtBox t).drop 4)).take 4 =
      stringToByteArray "tfdt" := by
    rw [createTfdtBox_eq]
    simp only [List.append_assoc]
    rw [drop_append_of_length_eq
      (show ([0, 0, 0, 20] : List Nat).length = 4 from rfl),
      take_append_of_length_eq (by simp [tag_tfdt])]
  have e_senc : (((createSencBox (byteArrayToInt trun 12)
      (getArraySegment uuid 32 uuid.length)).drop 4)).take 4 =
      stringToByteArray "senc" := by
    rw [createSencBox_eq]
    simp only [List.append_assoc]
    rw [drop_append_of_length_eq (intToByteArray_length _),
      take_append_of_length_eq (by simp [tag_senc])]
  have hmain : childTypes (rebuildTrafEnc t tfhd trun uuid) =
      [stringToByteArray "tfhd", stringToByteArray "trun",
       stringToByteArray "saiz", stringToByteArray "saio",
       stringToByteArray "tfdt", stringToByteArray "senc"] := by
    rw [childTypes, hpayload, hflat, boxScan_flatten _ _ hfuel hboxes]
    simp only [List.map_cons, List.map_nil]
    rw [e_tfhd, h7, e_saiz, e_saio, e_tfdt, e_senc]
  refine ⟨hmain, ?_, ?_, ?_, ?_, ?_, ?_, ?_⟩ <;>
    rw [hmain] <;>
    simp only [tag_tfhd, tag_trun, tag_saiz, tag_saio, tag_tfdt, tag_senc,
      tag_uuid, tag_tfxd, tag_sdtp] <;>
    decide

/-- Claim C5, witness: the synthetic tfhd/trun/uuid boxes satisfy all
hypotheses and the rebuilt traf's children are exactly the six boxes in
order. -/
theorem C5_encrypted_traf_layout_witness :
    childTypes (rebuildTrafEnc (lookupTime 1) testTfhd testTrun testUuid) =
      [stringToByteArray "tfhd", stringToByteArray "trun",
       stringToByteArray "saiz", stringToByteArray "saio",
       stringToByteArray "tfdt", stringToByteArray "senc"] ∧
    (childTypes (rebuildTrafEnc (lookupTime 1) testTfhd testTrun
        testUuid)).count (stringToByteArray "uuid") = 0 := by
  have h := C5_encrypted_traf_layout (lookupTime 1) testTfhd testTrun testUuid
    (by decide) (by decide) (by decide) (by decide) (by decide) (by decide)
    (by decide) (by decide)
  exact ⟨h.1, h.2.2.2.2.2.1⟩
